import Mathlib

/-
Verification of the NotchNoti Claude Code hook (rust-hook/src/main.rs).

The development shallowly embeds the hook's core logic in Lean:
pure Rust functions become Lean functions over lists of characters
(a Rust string is modelled as a List Char of its Unicode scalar values),
filesystem existence is an explicit boolean oracle, the HashMap metadata
is an association list with overwriting insert, and the fallible socket
transport is modelled with Except over an explicit outcome type.
-/

/-- A Rust string, modelled as its sequence of Unicode scalar values
(Rust char and Lean Char are both Unicode scalar values). -/
abbrev Str := List Char

/-- Rust str::starts_with for string patterns: the first argument is the
pattern, the second the string. -/
def startsWithL : Str → Str → Bool
  | [], _ => true
  | _ :: _, [] => false
  | p :: ps, c :: cs => p = c && startsWithL ps cs

/-- Rust s.chars().take(n).collect::<String>(): keep the first n Unicode
scalar values. Total by construction, so it cannot fail on any input. -/
def takeChars (n : Nat) (s : Str) : Str := s.take n

/-- Rust str::replacen(old, new, 1): replace the first occurrence of the
pattern old by new; if old does not occur, the string is unchanged.
An empty pattern matches at position 0 (as in Rust). -/
def replaceFirst (old new : Str) : Str → Str
  | [] => if startsWithL old [] then new else []
  | c :: rest =>
    if startsWithL old (c :: rest) then new ++ (c :: rest).drop old.length
    else c :: replaceFirst old new rest

/-- Line splitter of the similar crate (TextDiff::from_lines): each line
keeps its terminator; the terminators are a newline, a carriage return
followed by a newline, or a lone carriage return; a final segment without
terminator is a line; the empty string has no lines. -/
def splitLinesAux : Str → Str → List Str
  | acc, [] => if acc = [] then [] else [acc.reverse]
  | acc, '\r' :: '\n' :: rest => (acc.reverse ++ ['\r', '\n']) :: splitLinesAux [] rest
  | acc, '\n' :: rest => (acc.reverse ++ ['\n']) :: splitLinesAux [] rest
  | acc, '\r' :: rest => (acc.reverse ++ ['\r']) :: splitLinesAux [] rest
  | acc, c :: rest => splitLinesAux (c :: acc) rest

def splitLines (s : Str) : List Str := splitLinesAux [] s

/-- Length of a longest common subsequence of two line lists, with a fuel
argument for structural recursion; every recursive call shortens the
combined length by one, so fuel equal to the combined length suffices. -/
def lcsLenAux : Nat → List Str → List Str → Nat
  | _, [], _ => 0
  | _, _, [] => 0
  | 0, _ :: _, _ :: _ => 0
  | fuel + 1, a :: as, b :: bs =>
    if a = b then 1 + lcsLenAux fuel as bs
    else max (lcsLenAux fuel (a :: as) bs) (lcsLenAux fuel as (b :: bs))

/-- Length of a longest common subsequence of two line lists. The similar
crate computes a minimal line diff, whose insert count is the number of
new lines minus the LCS length and whose delete count is the number of
old lines minus the LCS length. -/
def lcsLen (xs ys : List Str) : Nat := lcsLenAux (xs.length + ys.length) xs ys

/-- Rust str::lines helpers: split on a newline character. -/
def splitOnNLAux : Str → Str → List Str
  | acc, [] => [acc.reverse]
  | acc, '\n' :: rest => acc.reverse :: splitOnNLAux [] rest
  | acc, c :: rest => splitOnNLAux (c :: acc) rest

/-- Drop a single trailing carriage return, as Rust str::lines does. -/
def stripTrailingCR (s : Str) : Str :=
  if s.getLast? = some '\r' then s.dropLast else s

/-- Rust str::lines: split on newlines, no trailing empty line when the
string ends with a newline, one trailing carriage return stripped. -/
def rustLines (s : Str) : List Str :=
  let parts := splitOnNLAux [] s
  let parts := if parts.getLast? = some [] then parts.dropLast else parts
  parts.map stripTrailingCR

/-- ASCII upper-casing of one character, used to build casing variants of
the event-kind discriminator. -/
def asciiUpper (c : Char) : Char :=
  if 'a' ≤ c ∧ c ≤ 'z' then Char.ofNat (c.toNat - 32) else c

/-
SHA-256 over byte lists, embedding the sha2 crate's Sha256 as used by
generate_file_id. Words are naturals below 2 to the 32; bitwise
operations are computed bit by bit with plain arithmetic on each bit.
-/

/-- Reduce modulo 2 to the 32 (u32 wrap-around). -/
def w32 (n : Nat) : Nat := n % 4294967296

/-- Combine the low n bits of two numbers with a per-bit function. -/
def bitZip (f : Nat → Nat → Nat) : Nat → Nat → Nat → Nat
  | 0, _, _ => 0
  | n + 1, x, y => f (x % 2) (y % 2) + 2 * bitZip f n (x / 2) (y / 2)

/-- Bitwise and on u32 values. -/
def and32 (x y : Nat) : Nat := bitZip (fun a b => a * b) 32 x y

/-- Bitwise xor on u32 values. -/
def xor32 (x y : Nat) : Nat := bitZip (fun a b => (a + b) % 2) 32 x y

/-- Right rotation of a u32 by n bits; the shifted-down and shifted-up
parts occupy disjoint bit ranges, so their sum is their bitwise or. -/
def rotr32 (n x : Nat) : Nat := x / 2 ^ n + x % 2 ^ n * 2 ^ (32 - n)

/-- SHA-256 Ch function; the two selections are bitwise disjoint, so the
sum equals the specified xor. -/
def ch32 (x y z : Nat) : Nat := and32 x y + and32 (4294967295 - w32 x) z

/-- SHA-256 Maj function. -/
def maj32 (x y z : Nat) : Nat := xor32 (xor32 (and32 x y) (and32 x z)) (and32 y z)

def bSig0 (x : Nat) : Nat := xor32 (xor32 (rotr32 2 x) (rotr32 13 x)) (rotr32 22 x)

def bSig1 (x : Nat) : Nat := xor32 (xor32 (rotr32 6 x) (rotr32 11 x)) (rotr32 25 x)

def sSig0 (x : Nat) : Nat := xor32 (xor32 (rotr32 7 x) (rotr32 18 x)) (x / 2 ^ 3)

def sSig1 (x : Nat) : Nat := xor32 (xor32 (rotr32 17 x) (rotr32 19 x)) (x / 2 ^ 10)

/-- The 64 SHA-256 round constants, written in decimal. -/
def sha256K : List Nat :=
  [1116352408, 1899447441, 3049323471, 3921009573, 961987163,
   1508970993, 2453635748, 2870763221, 3624381080, 310598401,
   607225278, 1426881987, 1925078388, 2162078206, 2614888103,
   3248222580, 3835390401, 4022224774, 264347078, 604807628,
   770255983, 1249150122, 1555081692, 1996064986, 2554220882,
   2821834349, 2952996808, 3210313671, 3336571891, 3584528711,
   113926993, 338241895, 666307205, 773529912, 1294757372,
   1396182291, 1695183700, 1986661051, 2177026350, 2456956037,
   2730485921, 2820302411, 3259730800, 3345764771, 3516065817,
   3600352804, 4094571909, 275423344, 430227734, 506948616,
   659060556, 883997877, 958139571, 1322822218, 1537002063,
   1747873779, 1955562222, 2024104815, 2227730452, 2361852424,
   2428436474, 2756734187, 3204031479, 3329325298]

/-- The SHA-256 initial hash state, written in decimal. -/
def sha256H0 : List Nat :=
  [1779033703, 3144134277, 1013904242, 2773480762, 1359893119,
   2600822924, 528734635, 1541459225]

/-- One extension word of the message schedule. -/
def wStep (w : List Nat) : Nat :=
  let t := w.length
  w32 (sSig1 (w.getD (t - 2) 0) + w.getD (t - 7) 0 + sSig0 (w.getD (t - 15) 0) + w.getD (t - 16) 0)

/-- Extend a 16-word block by the given number of schedule words. -/
def buildW (base : List Nat) : Nat → List Nat
  | 0 => base
  | n + 1 => let w := buildW base n; w ++ [wStep w]

/-- One SHA-256 compression round on the eight-word working state. -/
def roundStep (st : List Nat) (k w : Nat) : List Nat :=
  let a := st.getD 0 0
  let b := st.getD 1 0
  let c := st.getD 2 0
  let d := st.getD 3 0
  let e := st.getD 4 0
  let f := st.getD 5 0
  let g := st.getD 6 0
  let h := st.getD 7 0
  let t1 := w32 (h + bSig1 e + ch32 e f g + k + w)
  let t2 := w32 (bSig0 a + maj32 a b c)
  [w32 (t1 + t2), a, b, c, w32 (d + t1), e, f, g]

/-- Compress one 16-word block into the hash state. -/
def compressBlock (hs : List Nat) (block : List Nat) : List Nat :=
  let w := buildW block 48
  let st := (sha256K.zip w).foldl (fun s kw => roundStep s kw.1 kw.2) hs
  (hs.zip st).map (fun p => w32 (p.1 + p.2))

/-- Group bytes into big-endian 32-bit words. -/
def toWords : List Nat → List Nat
  | b0 :: b1 :: b2 :: b3 :: rest =>
    (b0 * 16777216 + b1 * 65536 + b2 * 256 + b3) :: toWords rest
  | _ => []

/-- Split a byte list into 64-byte blocks, with a fuel argument for
structural recursion; each step consumes at least one byte, so fuel
equal to the byte count suffices. -/
def chunks64Aux : Nat → List Nat → List (List Nat)
  | _, [] => []
  | 0, _ :: _ => []
  | fuel + 1, b :: rest => ((b :: rest).take 64) :: chunks64Aux fuel ((b :: rest).drop 64)

/-- Split a byte list into 64-byte blocks. -/
def chunks64 (l : List Nat) : List (List Nat) := chunks64Aux l.length l

/-- The 8-byte big-endian encoding of the message bit length. -/
def beBytes8 (n : Nat) : List Nat :=
  [n / 72057594037927936 % 256, n / 281474976710656 % 256, n / 1099511627776 % 256,
   n / 4294967296 % 256, n / 16777216 % 256, n / 65536 % 256, n / 256 % 256, n % 256]

/-- SHA-256 padding: a 0x80 byte, zeros to 56 mod 64, the bit length. -/
def padBytes (msg : List Nat) : List Nat :=
  let L := msg.length
  msg ++ [128] ++ List.replicate ((64 - (L + 9) % 64) % 64) 0 ++ beBytes8 (L * 8)

/-- The big-endian bytes of one 32-bit word. -/
def wordBytes (w : Nat) : List Nat :=
  [w / 16777216 % 256, w / 65536 % 256, w / 256 % 256, w % 256]

/-- The SHA-256 digest (32 bytes) of a byte list. -/
def sha256Bytes (msg : List Nat) : List Nat :=
  let hs := (chunks64 (padBytes msg)).foldl (fun h block => compressBlock h (toWords block)) sha256H0
  hs.foldr (fun wd acc => wordBytes wd ++ acc) []

/-- UTF-8 encoding of one Unicode scalar value. -/
def utf8EncodeChar (c : Char) : List Nat :=
  let n := c.toNat
  if n < 128 then [n]
  else if n < 2048 then [192 + n / 64, 128 + n % 64]
  else if n < 65536 then [224 + n / 4096, 128 + n / 64 % 64, 128 + n % 64]
  else [240 + n / 262144, 128 + n / 4096 % 64, 128 + n / 64 % 64, 128 + n % 64]

/-- The UTF-8 bytes of a string, as Rust str::as_bytes yields them. -/
def utf8Bytes (s : Str) : List Nat :=
  s.foldr (fun c acc => utf8EncodeChar c ++ acc) []

/-- One lower-case hex digit. -/
def hexDigit (n : Nat) : Char :=
  if n < 10 then Char.ofNat (48 + n) else Char.ofNat (87 + n)

/-- Two hex digits of one byte. -/
def hexByte (b : Nat) : List Char := [hexDigit (b / 16), hexDigit (b % 16)]

/-- Lower-case hex encoding of a byte list (the hex crate's encode). -/
def hexEncode (bs : List Nat) : List Char :=
  bs.foldr (fun b acc => hexByte b ++ acc) []

/-- generate_file_id: the hex-encoded SHA-256 digest of the UTF-8 bytes
of the absolute path string. -/
def generateFileId (path : Str) : Str := hexEncode (sha256Bytes (utf8Bytes path))

/-
Data model: loosely typed tool arguments, hook events, notifications.
-/

/-- A loosely typed JSON value (serde_json::Value), restricted to the
shapes the hook inspects: strings, arrays, objects, and anything else. -/
inductive Jval where
  | str : Str → Jval
  | arr : List Jval → Jval
  | obj : List (Str × Jval) → Jval
  | other : Jval

/-- First binding of a key among object fields. -/
def lookupField : List (Str × Jval) → Str → Option Jval
  | [], _ => none
  | (k, v) :: rest, key => if k = key then some v else lookupField rest key

/-- Value.get(key) on an object: first binding of the key, if any. -/
def Jval.getKey : Jval → Str → Option Jval
  | .obj fields, key => lookupField fields key
  | _, _ => none

/-- Value.as_str. -/
def Jval.asStr : Jval → Option Str
  | .str s => some s
  | _ => none

/-- Value.as_array. -/
def Jval.asArr : Jval → Option (List Jval)
  | .arr l => some l
  | _ => none

/-- The decoded hook event (struct HookEvent). -/
structure HookEvent where
  hookEventName : Str
  toolName : Option Str
  toolInput : Option Jval
  toolOutput : Option Jval
  error : Option Str

/-- The per-process context the handlers read (struct NotchHook), with
filesystem existence as an explicit oracle and the session clock reading
already formatted (the handlers only ever format it into metadata). -/
structure Env where
  projectPath : Str
  projectName : Str
  pathExists : Str → Bool
  sessionDuration : Str

/-- The wire notification record (struct Notification); the metadata
HashMap is modelled as an association list with overwriting insert. -/
structure Notification where
  title : Str
  message : Str
  notificationType : Str
  priority : Nat
  metadata : List (Str × Str)
deriving DecidableEq

/-- HashMap::insert: overwrite the binding of the key if present,
otherwise append it. -/
def upsert : List (Str × Str) → Str → Str → List (Str × Str)
  | [], k, v => [(k, v)]
  | (k', v') :: rest, k, v =>
    if k' = k then (k, v) :: rest else (k', v') :: upsert rest k v

/-- HashMap::get: the value bound to the key, if any. -/
def lookupMeta : List (Str × Str) → Str → Option Str
  | [], _ => none
  | (k', v) :: rest, k => if k' = k then some v else lookupMeta rest k

/-- The keys of a metadata map or artifact store. -/
def storeKeys (m : List (Str × Str)) : List Str := m.map Prod.fst

/-- The fixed baseline metadata of send_notification_with_metadata:
source identity, project name, project path, elapsed session duration. -/
def baseMetadata (env : Env) : List (Str × Str) :=
  upsert (upsert (upsert (upsert [] "source".data "claude-code".data)
    "project".data env.projectName) "project_path".data env.projectPath)
    "session_duration".data env.sessionDuration

/-- Insert every binding of the second list into the first map, in
order (the merge loop of send_notification_with_metadata). -/
def insertAll (m : List (Str × Str)) (extra : List (Str × Str)) : List (Str × Str) :=
  extra.foldl (fun acc kv => upsert acc kv.1 kv.2) m

/-- send_notification_with_metadata: baseline metadata first, then the
event-specific entries inserted on top, so they win on key conflicts. -/
def buildNotification (env : Env) (title message ntype : Str) (priority : Nat)
    (extra : List (Str × Str)) : Notification :=
  { title := title
    message := message
    notificationType := ntype
    priority := priority
    metadata := insertAll (baseMetadata env) extra }

/-- send_notification_with_diff: its own metadata map with source,
project, project path, tool name, event type, and the optional file and
diff paths; it does not insert a session-duration entry. -/
def buildNotificationWithDiff (env : Env) (title message ntype : Str) (priority : Nat)
    (diffPath filePath : Option Str) (toolName : Str) : Notification :=
  let md := upsert (upsert (upsert (upsert (upsert [] "source".data "claude-code".data)
    "project".data env.projectName) "project_path".data env.projectPath)
    "tool_name".data toolName) "event_type".data "PreToolUse".data
  let md := match filePath with
    | some p => upsert md "file_path".data p
    | none => md
  let md := match diffPath with
    | some p => upsert (upsert md "diff_path".data p) "is_preview".data "true".data
    | none => md
  { title := title
    message := message
    notificationType := ntype
    priority := priority
    metadata := md }

/-
Path resolver (extract_file_path) and relative display path.
-/

/-- PathBuf::join for a relative second component: append with one
separator. -/
def pathJoin (base rel : Str) : Str := base ++ "/".data ++ rel

/-- The path normalization inside extract_file_path: a string starting
with a slash is kept only if that path exists on disk; otherwise its
leading slashes are stripped and the rest is joined to the project root;
a string not starting with a slash is joined to the project root. -/
def resolveRawPath (pathOnDisk : Str → Bool) (projectPath raw : Str) : Str :=
  if raw.head? = some '/' then
    if pathOnDisk raw then raw
    else pathJoin projectPath (raw.dropWhile (fun c => c = '/'))
  else pathJoin projectPath raw

/-- extract_file_path: pick the path-carrying argument field of the tool
(file_path for Edit, Write, MultiEdit; pathInProject for the two
JetBrains file tools; nothing otherwise) and normalize it. -/
def extractFilePath (env : Env) (toolName : Str) (toolInput : Jval) : Option Str :=
  let pathStr :=
    if toolName = "Edit".data ∨ toolName = "Write".data ∨ toolName = "MultiEdit".data then
      (toolInput.getKey "file_path".data).bind Jval.asStr
    else if toolName = "mcp__jetbrains__replace_text_in_file".data ∨
        toolName = "mcp__jetbrains__create_new_file".data then
      (toolInput.getKey "pathInProject".data).bind Jval.asStr
    else none
  pathStr.map (resolveRawPath env.pathExists env.projectPath)

/-- get_relative_path: strip the project-root prefix for display, or
show the path unchanged when it is not under the project root. -/
def getRelativePath (projectPath p : Str) : Str :=
  if p = projectPath then []
  else if startsWithL (projectPath ++ "/".data) p then p.drop (projectPath.length + 1)
  else p

/-
Diff preview generator (generate_preview_diff).
-/

/-- The statistics record persisted with a preview (struct DiffStats). -/
structure DiffStats where
  added : Nat
  removed : Nat
  file : Str
  preview : Bool
deriving DecidableEq

/-- What generate_preview_diff computes: the two artifact paths, the
statistics, and the synthesized modified content. The rendered unified
diff text is not modelled, only the line counts derived from the same
line diff. -/
structure PreviewResult where
  diffPath : Str
  statsPath : Str
  stats : DiffStats
  modified : Str
deriving DecidableEq

/-- The synthesis rule for the hypothetical post-edit content: both
fragments present means a single first-occurrence replacement in the
current content; only a new fragment means that fragment verbatim;
otherwise the current content unchanged. -/
def synthesizeModified (original : Str) : Option Str → Option Str → Str
  | some old, some new => replaceFirst old new original
  | none, some new => new
  | _, _ => original

/-- The diff artifact filename for a target path. -/
def previewDiffFileName (path : Str) : Str :=
  generateFileId path ++ ".preview.diff".data

/-- The stats artifact filename for a target path. -/
def previewStatsFileName (path : Str) : Str :=
  generateFileId path ++ ".preview.stats.json".data

/-- generate_preview_diff: the current content is the on-disk content or
empty when the file does not exist (current = none); the modified
content follows the synthesis rule; added and removed count the inserted
and deleted lines of a minimal line diff (equal lines count in neither);
the artifacts are named by the file identity inside the diff directory. -/
def generatePreviewDiff (diffDir filePath : Str) (current : Option Str)
    (oldText newText : Option Str) : PreviewResult :=
  let original := current.getD []
  let modified := synthesizeModified original oldText newText
  let a := splitLines original
  let b := splitLines modified
  let l := lcsLen a b
  { diffPath := pathJoin diffDir (previewDiffFileName filePath)
    statsPath := pathJoin diffDir (previewStatsFileName filePath)
    stats := { added := b.length - l, removed := a.length - l, file := filePath, preview := true }
    modified := modified }

/-- Persisting the two preview artifacts into a store of file contents
keyed by absolute artifact path; fs::write overwrites an existing file. -/
def writePreviewArtifacts (store : List (Str × Str)) (diffDir path diffText statsText : Str) :
    List (Str × Str) :=
  upsert (upsert store (pathJoin diffDir (previewDiffFileName path)) diffText)
    (pathJoin diffDir (previewStatsFileName path)) statsText

/-
Classifier / dispatcher.
-/

/-- The internal tag of a recognized lifecycle event kind. -/
inductive EventKind where
  | preToolUse
  | postToolUse
  | stopKind
  | notificationKind
  | sessionStart
  | userPromptSubmit
  | preCompact
deriving DecidableEq

/-- The discriminator dispatch of process_hook_event: an exact match
against the PascalCase spelling or the snake_case spelling of each of
the seven kinds; anything else is unhandled. -/
def classifyEvent (s : Str) : Option EventKind :=
  if s = "PreToolUse".data ∨ s = "pre_tool_use".data then some .preToolUse
  else if s = "PostToolUse".data ∨ s = "post_tool_use".data then some .postToolUse
  else if s = "Stop".data ∨ s = "stop".data then some .stopKind
  else if s = "Notification".data ∨ s = "notification".data then some .notificationKind
  else if s = "SessionStart".data ∨ s = "session_start".data then some .sessionStart
  else if s = "UserPromptSubmit".data ∨ s = "user_prompt_submit".data then some .userPromptSubmit
  else if s = "PreCompact".data ∨ s = "pre_compact".data then some .preCompact
  else none

/-- The Bash command classification of handle_pre_tool_use: prefix match
into (notify, priority, icon); the noise category yields notify = false. -/
def classifyBashCommand (command : Str) : Bool × Nat × Str :=
  if startsWithL "git ".data command then (true, 2, "🔀".data)
  else if startsWithL "npm ".data command ∨ startsWithL "yarn ".data command ∨
      startsWithL "pnpm ".data command then (true, 2, "📦".data)
  else if startsWithL "rm ".data command ∨ startsWithL "mv ".data command then
    (true, 3, "⚠️".data)
  else if startsWithL "docker ".data command ∨ startsWithL "kubectl ".data command then
    (true, 2, "🐳".data)
  else if startsWithL "make ".data command ∨ startsWithL "cargo ".data command ∨
      startsWithL "go ".data command then (true, 1, "🔨".data)
  else if startsWithL "pytest".data command ∨ startsWithL "jest".data command ∨
      startsWithL "test".data command then (true, 1, "🧪".data)
  else if startsWithL "echo".data command ∨ startsWithL "ls".data command ∨
      startsWithL "pwd".data command ∨ startsWithL "date".data command ∨
      startsWithL "curl localhost:9876".data command then (false, 0, [])
  else (true, 1, "💻".data)

/-- The Bash arm of handle_pre_tool_use: read the command argument,
classify it, suppress the noise category, and otherwise send one
notification whose priority is clamped to at most 2. -/
def handleBashPreToolUse (env : Env) (toolInput : Option Jval) : List Notification :=
  match toolInput with
  | none => []
  | some input =>
    match (input.getKey "command".data).bind Jval.asStr with
    | none => []
    | some command =>
      let cmdPreview := takeChars 80 command
      let cls := classifyBashCommand command
      if cls.1 then
        [buildNotification env
          ("[".data ++ env.projectName ++ "] ".data ++ cls.2.2 ++ " 执行命令".data)
          (cmdPreview ++ "...".data) "tool_use".data (Nat.min cls.2.1 2) []]
      else []

/-- handle_post_tool_use: an event carrying an error field always sends
the fixed error notification and skips all tool-specific processing;
otherwise the tool-specific completion rules run. -/
def handlePostToolUse (env : Env) (e : HookEvent) : List Notification :=
  let toolName := e.toolName.getD []
  match e.error with
  | some err =>
    [buildNotification env ("[".data ++ env.projectName ++ "] ❌ 工具执行失败".data)
      (toolName ++ ": ".data ++ takeChars 100 err) "error".data 3
      [("event_type".data, "tool_error".data), ("tool_name".data, toolName),
       ("error_message".data, err)]]
  | none =>
    if toolName = "MultiEdit".data then
      match e.toolInput with
      | none => []
      | some input =>
        match extractFilePath env toolName input with
        | none => []
        | some filePath =>
          let relativePath := getRelativePath env.projectPath filePath
          let editsCount := match (input.getKey "edits".data).bind Jval.asArr with
            | some edits => edits.length
            | none => 0
          let msg := if editsCount > 0 then
              relativePath ++ " (".data ++ (Nat.repr editsCount).data ++ " 处修改已完成)".data
            else relativePath
          [buildNotification env ("[".data ++ env.projectName ++ "] ✅ 批量修改完成".data)
            msg "success".data 0 []]
    else if toolName = "mcp__jetbrains__replace_text_in_file".data ∨
        toolName = "mcp__jetbrains__create_new_file".data then
      match e.toolInput with
      | none => []
      | some input =>
        match extractFilePath env toolName input with
        | none => []
        | some filePath =>
          let relativePath := getRelativePath env.projectPath filePath
          let action := if toolName = "mcp__jetbrains__create_new_file".data then
              "文件已创建".data
            else "IDE 修改完成".data
          [buildNotification env
            ("[".data ++ env.projectName ++ "] ✅ JetBrains ".data ++ action)
            relativePath "success".data 0 []]
    else if toolName = "Edit".data ∨ toolName = "Write".data then
      match e.toolInput with
      | none => []
      | some input =>
        match extractFilePath env toolName input with
        | none => []
        | some filePath =>
          [buildNotification env ("[".data ++ env.projectName ++ "] ✅ 修改完成".data)
            (getRelativePath env.projectPath filePath) "success".data 0 []]
    else if toolName = "Task".data then
      [buildNotification env ("[".data ++ env.projectName ++ "] ✨ Agent 完成".data)
        "AI 任务处理完毕".data "success".data 1 []]
    else if toolName = "Bash".data then
      match e.toolOutput with
      | none => []
      | some out =>
        match out.asStr with
        | none => []
        | some output =>
          let preview := takeChars 100
            (List.intercalate " | ".data ((rustLines output).take 2))
          if preview = [] then []
          else
            [buildNotification env ("[".data ++ env.projectName ++ "] ✅ 命令完成".data)
              preview "success".data 0 []]
    else []

/-
Delivery transport (send_via_socket and its callers).
-/

/-- The observable outcome of one delivery attempt over the local
channel. -/
inductive SocketAttempt where
  | connectFailed
  | writeFailed
  | readFailed
  | noResponse
  | delivered : Str → SocketAttempt

/-- send_via_socket: a connect or write failure is an error; a failed or
absent response read is discarded (the .ok() call) and the function
still succeeds. -/
def sendViaSocketResult : SocketAttempt → Except Str Unit
  | .connectFailed => .error "Failed to connect to Unix socket".data
  | .writeFailed => .error "Failed to write to socket".data
  | .readFailed => .ok ()
  | .noResponse => .ok ()
  | .delivered _ => .ok ()

/-- The result send_notification_with_metadata reports to its caller: a
transport error is logged and swallowed, so the function returns Ok
whatever the attempt did. -/
def sendNotificationOutcome (a : SocketAttempt) : Except Str Unit :=
  match sendViaSocketResult a with
  | .error _ => .ok ()
  | .ok _ => .ok ()

/-- The result send_notification_with_diff reports to its caller, with
the same log-and-swallow handling of transport errors. -/
def sendNotificationWithDiffOutcome (a : SocketAttempt) : Except Str Unit :=
  match sendViaSocketResult a with
  | .error _ => .ok ()
  | .ok _ => .ok ()

/-
Concrete fixtures used by witnesses and counterexamples.
-/

/-- A concrete environment: project proj at /home/u/proj, no path on
disk, session clock reading 1.0. -/
def env0 : Env :=
  { projectPath := "/home/u/proj".data
    projectName := "proj".data
    pathExists := fun _ => false
    sessionDuration := "1.0".data }

/-- A post-tool-use Bash event carrying a non-empty error. -/
def errEvent : HookEvent :=
  { hookEventName := "PostToolUse".data
    toolName := some "Bash".data
    toolInput := none
    toolOutput := none
    error := some "boom".data }

/-- A post-tool-use Edit event whose error field is the empty string,
with arguments that would otherwise trigger the Edit completion rule. -/
def emptyErrEvent : HookEvent :=
  { hookEventName := "PostToolUse".data
    toolName := some "Edit".data
    toolInput := some (Jval.obj [("file_path".data, Jval.str "a.txt".data)])
    toolOutput := none
    error := some [] }

/-- Bash tool arguments for a git commit command. -/
def gitInput : Jval := Jval.obj [("command".data, Jval.str "git commit -m x".data)]

/-- The notification the Bash arm sends for the git commit command. -/
def gitNotification : Notification :=
  buildNotification env0 ("[".data ++ env0.projectName ++ "] ".data ++ "🔀".data ++
    " 执行命令".data) (takeChars 80 "git commit -m x".data ++ "...".data)
    "tool_use".data (Nat.min 2 2) []

/-
Helper lemmas about the metadata map operations.
-/

theorem lookupMeta_upsert_self (m : List (Str × Str)) (k v : Str) :
    lookupMeta (upsert m k v) k = some v := by
  induction m with
  | nil => simp [upsert, lookupMeta]
  | cons hd tl ih =>
    obtain ⟨k', v'⟩ := hd
    by_cases h : k' = k
    · simp [upsert, lookupMeta, h]
    · simp [upsert, lookupMeta, h, ih]

theorem lookupMeta_upsert_ne (m : List (Str × Str)) (k0 v0 k : Str) (h : k0 ≠ k) :
    lookupMeta (upsert m k0 v0) k = lookupMeta m k := by
  induction m with
  | nil => simp [upsert, lookupMeta, h]
  | cons hd tl ih =>
    obtain ⟨k', v'⟩ := hd
    by_cases hk : k' = k0
    · subst hk; simp [upsert, lookupMeta, h]
    · simp [upsert, lookupMeta, hk, ih]

theorem lookupMeta_upsert_isSome (m : List (Str × Str)) (k0 v0 k : Str)
    (h : (lookupMeta m k).isSome) : (lookupMeta (upsert m k0 v0) k).isSome := by
  by_cases hk : k0 = k
  · subst hk; rw [lookupMeta_upsert_self]; rfl
  · rwa [lookupMeta_upsert_ne m k0 v0 k hk]

theorem insertAll_cons (m : List (Str × Str)) (k0 v0 : Str) (tl : List (Str × Str)) :
    insertAll m ((k0, v0) :: tl) = insertAll (upsert m k0 v0) tl := rfl

theorem storeKeys_cons (k : Str) (v : Str) (tl : List (Str × Str)) :
    storeKeys ((k, v) :: tl) = k :: storeKeys tl := rfl

theorem lookupMeta_insertAll_of_not_mem (extra : List (Str × Str)) :
    ∀ (m : List (Str × Str)) (k : Str), k ∉ storeKeys extra →
      lookupMeta (insertAll m extra) k = lookupMeta m k := by
  induction extra with
  | nil => intro m k _; rfl
  | cons hd tl ih =>
    intro m k h
    obtain ⟨k0, v0⟩ := hd
    rw [storeKeys_cons] at h
    have h1 : k ≠ k0 := fun hk => h (hk ▸ List.mem_cons_self _ _)
    have h2 : k ∉ storeKeys tl := fun hk => h (List.mem_cons_of_mem _ hk)
    rw [insertAll_cons, ih _ _ h2, lookupMeta_upsert_ne m k0 v0 k (Ne.symm h1)]

theorem lookupMeta_insertAll_of_mem (extra : List (Str × Str)) :
    ∀ (m : List (Str × Str)) (k v : Str), (storeKeys extra).Nodup → (k, v) ∈ extra →
      lookupMeta (insertAll m extra) k = some v := by
  induction extra with
  | nil => intro m k v _ hmem; cases hmem
  | cons hd tl ih =>
    intro m k v hnd hmem
    obtain ⟨k0, v0⟩ := hd
    rw [storeKeys_cons] at hnd
    have hnd' := List.nodup_cons.mp hnd
    rw [insertAll_cons]
    rcases List.mem_cons.mp hmem with heq | hmem'
    · cases heq
      rw [lookupMeta_insertAll_of_not_mem tl _ k hnd'.1, lookupMeta_upsert_self]
    · exact ih _ k v hnd'.2 hmem'

theorem lookupMeta_insertAll_isSome (extra : List (Str × Str)) :
    ∀ (m : List (Str × Str)) (k : Str), (lookupMeta m k).isSome →
      (lookupMeta (insertAll m extra) k).isSome := by
  induction extra with
  | nil => intro m k h; exact h
  | cons hd tl ih => intro m k h; exact ih _ _ (lookupMeta_upsert_isSome _ _ _ _ h)

theorem baseMetadata_eq (env : Env) :
    baseMetadata env =
      [("source".data, "claude-code".data), ("project".data, env.projectName),
       ("project_path".data, env.projectPath),
       ("session_duration".data, env.sessionDuration)] := rfl

theorem mem_storeKeys_upsert_self (m : List (Str × Str)) (k v : Str) :
    k ∈ storeKeys (upsert m k v) := by
  induction m with
  | nil => exact List.mem_singleton.mpr rfl
  | cons hd tl ih =>
    obtain ⟨k', v'⟩ := hd
    by_cases h : k' = k
    · simp [upsert, h, storeKeys_cons]
    · simp only [upsert, if_neg h, storeKeys_cons]
      exact List.mem_cons_of_mem _ ih

theorem mem_storeKeys_upsert_mono (m : List (Str × Str)) (k0 v0 k : Str)
    (h : k ∈ storeKeys m) : k ∈ storeKeys (upsert m k0 v0) := by
  induction m with
  | nil => cases h
  | cons hd tl ih =>
    obtain ⟨k', v'⟩ := hd
    rw [storeKeys_cons] at h
    by_cases hk : k' = k0
    · subst hk
      simp only [upsert, if_pos rfl, storeKeys_cons]
      exact h
    · simp only [upsert, if_neg hk, storeKeys_cons]
      rcases List.mem_cons.mp h with heq | hmem
      · exact heq ▸ List.mem_cons_self _ _
      · exact List.mem_cons_of_mem _ (ih hmem)

theorem storeKeys_upsert_of_mem (m : List (Str × Str)) (k v : Str)
    (h : k ∈ storeKeys m) : storeKeys (upsert m k v) = storeKeys m := by
  induction m with
  | nil => cases h
  | cons hd tl ih =>
    obtain ⟨k', v'⟩ := hd
    rw [storeKeys_cons] at h
    by_cases hk : k' = k
    · simp [upsert, hk, storeKeys_cons]
    · have hmem : k ∈ storeKeys tl := by
        rcases List.mem_cons.mp h with heq | hmem
        · exact absurd heq.symm hk
        · exact hmem
      simp only [upsert, if_neg hk, storeKeys_cons, ih hmem]

theorem lcsLen_nil_left (ys : List Str) : lcsLen [] ys = 0 := by
  cases ys <;> rfl

theorem splitLines_nil : splitLines [] = [] := rfl

theorem dropWhile_slash (rest : Str) (h : rest.head? ≠ some '/') :
    List.dropWhile (fun c => c = '/') ('/' :: rest) = rest := by
  cases rest with
  | nil => rfl
  | cons c t =>
    have hc : ¬(c = '/') := fun hc => h (by simp [hc])
    simp [List.dropWhile_cons, hc]

set_option maxRecDepth 100000

/-- C1: the modified content synthesized by generate_preview_diff follows
the three-case rule: with both fragments it is the current on-disk
content (empty when the file is absent) with the first occurrence of the
old fragment replaced by the new one; with only a new fragment it is
that fragment verbatim; with neither it is the current content, and a
missing file behaves exactly like an empty one. On the concrete example
old "foo", new "bar" against content "foo newline baz newline" the stats
report one added and one removed line and the modified content is
"bar newline baz newline"; a full-file write against a missing file adds
one line per line of the new content and removes none. -/
theorem c1_preview_diff_synthesis :
    (∀ dir p cur old new,
      (generatePreviewDiff dir p cur (some old) (some new)).modified =
        replaceFirst old new (cur.getD [])) ∧
    (∀ dir p cur new,
      (generatePreviewDiff dir p cur none (some new)).modified = new) ∧
    (∀ dir p cur,
      (generatePreviewDiff dir p cur none none).modified = cur.getD []) ∧
    (∀ dir p old new,
      generatePreviewDiff dir p none old new = generatePreviewDiff dir p (some []) old new) ∧
    ((generatePreviewDiff "/d".data "/f".data (some "foo\nbaz\n".data)
        (some "foo".data) (some "bar".data)).modified = "bar\nbaz\n".data ∧
      (generatePreviewDiff "/d".data "/f".data (some "foo\nbaz\n".data)
        (some "foo".data) (some "bar".data)).stats.added = 1 ∧
      (generatePreviewDiff "/d".data "/f".data (some "foo\nbaz\n".data)
        (some "foo".data) (some "bar".data)).stats.removed = 1) ∧
    (∀ dir p new,
      (generatePreviewDiff dir p none none (some new)).stats.added =
        (splitLines new).length ∧
      (generatePreviewDiff dir p none none (some new)).stats.removed = 0) := by
  refine ⟨fun _ _ _ _ _ => rfl, fun _ _ _ _ => rfl, fun _ _ _ => rfl,
    fun _ _ _ _ => rfl, by decide, ?_⟩
  intro dir p new
  constructor
  · simp [generatePreviewDiff, synthesizeModified, splitLines_nil, lcsLen_nil_left]
  · simp [generatePreviewDiff, synthesizeModified, splitLines_nil, lcsLen_nil_left]

/-- C2: the path resolver keeps a slash-leading raw path that exists on
disk unchanged; a slash-leading raw path that does not exist has its
leading slash stripped and the remainder joined to the project root; a
raw path without a leading slash is joined to the project root; Edit
arguments carrying a file_path field are resolved exactly this way; and
the concrete raw path /README.md, absent from disk, resolves to the
project-root README.md. -/
theorem c2_path_resolution :
    (∀ ex root raw, raw.head? = some '/' → ex raw = true →
      resolveRawPath ex root raw = raw) ∧
    (∀ ex root rest, rest.head? ≠ some '/' → ex ('/' :: rest) = false →
      resolveRawPath ex root ('/' :: rest) = pathJoin root rest) ∧
    (∀ ex root raw, raw.head? ≠ some '/' →
      resolveRawPath ex root raw = pathJoin root raw) ∧
    (∀ env (input : Jval) raw,
      (input.getKey "file_path".data).bind Jval.asStr = some raw →
      extractFilePath env "Edit".data input =
        some (resolveRawPath env.pathExists env.projectPath raw)) ∧
    resolveRawPath (fun _ => false) "/proj".data "/README.md".data =
      "/proj/README.md".data := by
  refine ⟨?_, ?_, ?_, ?_, by decide⟩
  · intro ex root raw h1 h2
    simp [resolveRawPath, h1, h2]
  · intro ex root rest h1 h2
    simp only [resolveRawPath]
    rw [if_pos (show ('/' :: rest).head? = some '/' from rfl), if_neg (by simp [h2]),
      dropWhile_slash rest h1]
  · intro ex root raw h
    simp [resolveRawPath, h]
  · intro env input raw h
    simp only [extractFilePath]
    rw [if_pos (Or.inl trivial), h]
    rfl

/-- C2 witness: the no-slash case at a concrete input. -/
theorem c2_path_resolution_witness :
    resolveRawPath (fun _ => false) "/proj".data "README.md".data =
      pathJoin "/proj".data "README.md".data :=
  c2_path_resolution.2.2.1 (fun _ => false) "/proj".data "README.md".data (by decide)

/-- C3: a post-tool-use event with a present non-empty error field
produces exactly one notification, the fixed error notification with
category error, priority 3, and a message of the tool name followed by
the error text truncated to 100 characters; no tool-specific
post-processing rule runs for that event. -/
theorem c3_error_overrides_post_processing :
    ∀ (env : Env) (e : HookEvent) (err : Str), e.error = some err → err ≠ [] →
      handlePostToolUse env e =
        [buildNotification env ("[".data ++ env.projectName ++ "] ❌ 工具执行失败".data)
          ((e.toolName.getD []) ++ ": ".data ++ takeChars 100 err) "error".data 3
          [("event_type".data, "tool_error".data), ("tool_name".data, e.toolName.getD []),
           ("error_message".data, err)]] := by
  intro env e err h _
  unfold handlePostToolUse
  rw [h]

/-- C3 witness: the failed Bash event at a concrete input. -/
theorem c3_error_witness :
    handlePostToolUse env0 errEvent =
      [buildNotification env0 ("[".data ++ env0.projectName ++ "] ❌ 工具执行失败".data)
        ((errEvent.toolName.getD []) ++ ": ".data ++ takeChars 100 "boom".data)
        "error".data 3
        [("event_type".data, "tool_error".data), ("tool_name".data, errEvent.toolName.getD []),
         ("error_message".data, "boom".data)]] :=
  c3_error_overrides_post_processing env0 errEvent "boom".data rfl (by decide)

/-- C10: the error override tests presence of the error field, not
non-emptiness: an event whose error is the empty string still yields the
single error-category, priority-3 notification and skips tool-specific
post-processing. -/
theorem c10_empty_error_still_overrides :
    ∀ (env : Env) (e : HookEvent), e.error = some [] →
      handlePostToolUse env e =
        [buildNotification env ("[".data ++ env.projectName ++ "] ❌ 工具执行失败".data)
          ((e.toolName.getD []) ++ ": ".data ++ takeChars 100 []) "error".data 3
          [("event_type".data, "tool_error".data), ("tool_name".data, e.toolName.getD []),
           ("error_message".data, [])]] := by
  intro env e h
  unfold handlePostToolUse
  rw [h]

/-- C10 witness: an Edit event with an empty error string and arguments
that would otherwise trigger the Edit completion rule. -/
theorem c10_empty_error_witness :
    handlePostToolUse env0 emptyErrEvent =
      [buildNotification env0 ("[".data ++ env0.projectName ++ "] ❌ 工具执行失败".data)
        ((emptyErrEvent.toolName.getD []) ++ ": ".data ++ takeChars 100 []) "error".data 3
        [("event_type".data, "tool_error".data),
         ("tool_name".data, emptyErrEvent.toolName.getD []), ("error_message".data, [])]] :=
  c10_empty_error_still_overrides env0 emptyErrEvent rfl

/-- C4 as stated fails on the code: notifications built by
send_notification_with_diff never carry a session-duration entry. The
concrete preview notification of an Edit lacks the key. -/
theorem c4_counterexample :
    lookupMeta (buildNotificationWithDiff env0 "[proj] ⏸️ 即将修改".data "m".data
      "tool_use".data 2 (some "/tmp/d.diff".data) (some "/home/u/proj/a.txt".data)
      "Edit".data).metadata "session_duration".data = none := by decide

/-- C4 (amended): notifications built through the general metadata path
always carry the four baseline keys and event-specific entries win on a
key conflict; notifications built through the diff path carry source
identity, project name and project path but no session-duration entry. -/
theorem c4_amended_metadata_baseline :
    (∀ (env : Env) (title msg ty : Str) (pr : Nat) (extra : List (Str × Str)) (k v : Str),
      (storeKeys extra).Nodup → (k, v) ∈ extra →
      lookupMeta (buildNotification env title msg ty pr extra).metadata k = some v) ∧
    (∀ (env : Env) (title msg ty : Str) (pr : Nat) (extra : List (Str × Str)),
      (lookupMeta (buildNotification env title msg ty pr extra).metadata
        "source".data).isSome ∧
      (lookupMeta (buildNotification env title msg ty pr extra).metadata
        "project".data).isSome ∧
      (lookupMeta (buildNotification env title msg ty pr extra).metadata
        "project_path".data).isSome ∧
      (lookupMeta (buildNotification env title msg ty pr extra).metadata
        "session_duration".data).isSome) ∧
    (∀ (env : Env) (title msg ty : Str) (pr : Nat) (dp fp : Option Str) (tn : Str),
      lookupMeta (buildNotificationWithDiff env title msg ty pr dp fp tn).metadata
        "source".data = some "claude-code".data ∧
      lookupMeta (buildNotificationWithDiff env title msg ty pr dp fp tn).metadata
        "project".data = some env.projectName ∧
      lookupMeta (buildNotificationWithDiff env title msg ty pr dp fp tn).metadata
        "project_path".data = some env.projectPath ∧
      lookupMeta (buildNotificationWithDiff env title msg ty pr dp fp tn).metadata
        "session_duration".data = none) := by
  refine ⟨?_, ?_, ?_⟩
  · intro env title msg ty pr extra k v hnd hmem
    exact lookupMeta_insertAll_of_mem extra (baseMetadata env) k v hnd hmem
  · intro env title msg ty pr extra
    exact ⟨lookupMeta_insertAll_isSome extra _ _ rfl, lookupMeta_insertAll_isSome extra _ _ rfl,
      lookupMeta_insertAll_isSome extra _ _ rfl, lookupMeta_insertAll_isSome extra _ _ rfl⟩
  · intro env title msg ty pr dp fp tn
    cases dp <;> cases fp <;> exact ⟨rfl, rfl, rfl, rfl⟩

/-- C4 witness: an event-specific project entry wins over the baseline
project entry. -/
theorem c4_amended_witness :
    lookupMeta (buildNotification env0 "t".data "m".data "ai".data 0
      [("project".data, "override".data)]).metadata "project".data =
      some "override".data :=
  c4_amended_metadata_baseline.1 env0 "t".data "m".data "ai".data 0
    [("project".data, "override".data)] "project".data "override".data (by decide) (by decide)

/-- C5 as stated fails on the code: the discriminator dispatch matches
the two accepted spellings exactly rather than case-insensitively; the
all-caps casing variant of the PascalCase spelling of the pre-tool-use
kind is not recognized, so it classifies differently. -/
theorem c5_counterexample :
    "PRETOOLUSE".data = "PreToolUse".data.map asciiUpper ∧
    classifyEvent "PreToolUse".data = some EventKind.preToolUse ∧
    classifyEvent "PRETOOLUSE".data = none := by decide

/-- C5 (amended): matching is exact over the two accepted alias
spellings: for each recognized event kind, the PascalCase spelling and
the snake_case spelling produce the same classification; other casing
variants are unrecognized. -/
theorem c5_amended_alias_dispatch :
    (classifyEvent "PreToolUse".data = some EventKind.preToolUse ∧
      classifyEvent "pre_tool_use".data = some EventKind.preToolUse) ∧
    (classifyEvent "PostToolUse".data = some EventKind.postToolUse ∧
      classifyEvent "post_tool_use".data = some EventKind.postToolUse) ∧
    (classifyEvent "Stop".data = some EventKind.stopKind ∧
      classifyEvent "stop".data = some EventKind.stopKind) ∧
    (classifyEvent "Notification".data = some EventKind.notificationKind ∧
      classifyEvent "notification".data = some EventKind.notificationKind) ∧
    (classifyEvent "SessionStart".data = some EventKind.sessionStart ∧
      classifyEvent "session_start".data = some EventKind.sessionStart) ∧
    (classifyEvent "UserPromptSubmit".data = some EventKind.userPromptSubmit ∧
      classifyEvent "user_prompt_submit".data = some EventKind.userPromptSubmit) ∧
    (classifyEvent "PreCompact".data = some EventKind.preCompact ∧
      classifyEvent "pre_compact".data = some EventKind.preCompact) := by decide

/-- C6: a Bash command in the noise category such as ls -la produces no
notification; a git command produces exactly one notification in the
version-control category (icon tag of the git branch, priority 2); and
every notification the Bash arm produces has priority at most 2. -/
theorem c6_bash_classification :
    (∀ env : Env, handleBashPreToolUse env
      (some (Jval.obj [("command".data, Jval.str "ls -la".data)])) = []) ∧
    (∀ env : Env, handleBashPreToolUse env (some gitInput) =
      [buildNotification env ("[".data ++ env.projectName ++ "] ".data ++ "🔀".data ++
        " 执行命令".data) (takeChars 80 "git commit -m x".data ++ "...".data)
        "tool_use".data 2 []]) ∧
    classifyBashCommand "git commit -m x".data = (true, 2, "🔀".data) ∧
    (∀ (env : Env) (input : Option Jval) (n : Notification),
      n ∈ handleBashPreToolUse env input → n.priority ≤ 2) := by
  refine ⟨fun _ => rfl, fun _ => rfl, rfl, ?_⟩
  intro env input n h
  cases input with
  | none => cases h
  | some inp =>
    simp only [handleBashPreToolUse] at h
    cases hcmd : (inp.getKey "command".data).bind Jval.asStr with
    | none => simp only [hcmd] at h; cases h
    | some command =>
      simp only [hcmd] at h
      split at h
      · rw [List.mem_singleton] at h
        subst h
        exact Nat.min_le_right _ _
      · cases h

/-- C6 witness: the git notification is produced and its priority is at
most 2. -/
theorem c6_bash_witness : gitNotification.priority ≤ 2 :=
  c6_bash_classification.2.2.2 env0 (some gitInput) gitNotification (by decide)

/-- C7: whatever the transport attempt does (connect failure, write
failure, read failure, missing response, or a delivered response), the
notification-sending operations report success to their caller. -/
theorem c7_delivery_best_effort :
    ∀ a : SocketAttempt, sendNotificationOutcome a = Except.ok () ∧
      sendNotificationWithDiffOutcome a = Except.ok () := by
  intro a
  cases a <;> exact ⟨rfl, rfl⟩

/-- C8: the file identity is a pure function of the absolute path
string, so equal paths give equal digests and equal artifact filenames,
and re-running preview persistence for the same path overwrites the two
existing artifacts instead of adding new store keys; the digest of the
empty path is the well-known SHA-256 value of the empty byte string. -/
theorem c8_file_identity_deterministic :
    (∀ p1 p2 : Str, p1 = p2 →
      generateFileId p1 = generateFileId p2 ∧
      previewDiffFileName p1 = previewDiffFileName p2 ∧
      previewStatsFileName p1 = previewStatsFileName p2 ∧
      (∀ (store : List (Str × Str)) (dir d1 s1 d2 s2 : Str),
        storeKeys (writePreviewArtifacts (writePreviewArtifacts store dir p1 d1 s1)
          dir p2 d2 s2) = storeKeys (writePreviewArtifacts store dir p1 d1 s1))) ∧
    generateFileId [] =
      "e3b0c44298fc1c149afbf4c8996fb92427ae41e4649b934ca495991b7852b855".data := by
  refine ⟨?_, by decide⟩
  intro p1 p2 h
  subst h
  refine ⟨rfl, rfl, rfl, ?_⟩
  intro store dir d1 s1 d2 s2
  have hA : pathJoin dir (previewDiffFileName p1) ∈
      storeKeys (writePreviewArtifacts store dir p1 d1 s1) :=
    mem_storeKeys_upsert_mono _ _ _ _ (mem_storeKeys_upsert_self _ _ _)
  have hB : pathJoin dir (previewStatsFileName p1) ∈
      storeKeys (writePreviewArtifacts store dir p1 d1 s1) :=
    mem_storeKeys_upsert_self _ _ _
  show storeKeys (upsert (upsert (writePreviewArtifacts store dir p1 d1 s1)
      (pathJoin dir (previewDiffFileName p1)) d2)
      (pathJoin dir (previewStatsFileName p1)) s2) =
    storeKeys (writePreviewArtifacts store dir p1 d1 s1)
  rw [storeKeys_upsert_of_mem _ _ _ (mem_storeKeys_upsert_mono _ _ _ _ hB),
    storeKeys_upsert_of_mem _ _ _ hA]

/-- C8 witness: determinism instantiated at one concrete path. -/
theorem c8_file_identity_witness :
    generateFileId "/a".data = generateFileId "/a".data :=
  (c8_file_identity_deterministic.1 "/a".data "/a".data rfl).1

/-- C9: each displayed excerpt is truncated to its per-field budget of
80, 100 or 200 counted in Unicode scalar values, and the truncation is a
total function, shown here also on emoji and CJK input: one hundred
emoji truncate to exactly 80 scalar values, and a short CJK string is
left whole. -/
theorem c9_truncation_budgets :
    (∀ s : Str, (takeChars 80 s).length ≤ 80) ∧
    (∀ s : Str, (takeChars 100 s).length ≤ 100) ∧
    (∀ s : Str, (takeChars 200 s).length ≤ 200) ∧
    (takeChars 80 (List.replicate 100 '😀')).length = 80 ∧
    takeChars 100 "你好，世界 🌍".data = "你好，世界 🌍".data := by
  refine ⟨?_, ?_, ?_, by decide, by decide⟩ <;>
    · intro s
      rw [takeChars, List.length_take]
      exact Nat.min_le_left _ _




